import Mathlib

/-!
Verification development for the NeuralODE repository.

The repository has two algorithmic parts that the claims concern:

* `src/tfdiffeq_2.py` — a custom adjoint-sensitivity backward pass
  (`OdeintAdjointMethod` and its `grad` closure, plus the
  `augmented_dynamics` helper) for an ODE integration primitive;
* `src/experiments/massspringdamper/utils.py` — dataset creation,
  persistence, and evaluation metrics (total energy, relative energy
  drift, relative phase error, zero crossings, results-log writing).

We embed the relevant functions shallowly: tensors are flat vectors of
rationals (`V`), the external ODE solver (`tfdiffeq.odeint`) is an
abstract function parameter, reverse-mode gradient computation
(`tf.GradientTape.gradient`, which may return `None` for a leaf) is an
abstract oracle returning `Option` values, and the file system is a map
from path strings to contents.
-/

set_option autoImplicit false

namespace NeuralODE

/-- A (flattened) real tensor: a vector of rationals. A scalar tensor is a
single rational `ℚ` where the distinction matters. -/
abbrev V := List ℚ

/-- Elementwise addition of two tensors (`+` on tensors of equal shape). -/
def vadd (a b : V) : V := List.zipWith (· + ·) a b

/-- Elementwise negation of a tensor (`-adj_y_` in the source). -/
def vneg (a : V) : V := a.map (fun x => -x)

/-- Embeds `tf.zeros_like`: a zero tensor of the same shape as the argument. -/
def zerosLike (a : V) : V := a.map (fun _ => 0)

/-- Embeds `tf.matmul(tf.reshape(a, [1, -1]), tf.reshape(b, [-1, 1]))`: the dot
product of two tensors viewed as flat vectors. -/
def dot (a b : V) : ℚ := (List.zipWith (· * ·) a b).sum

/-!
## The adjoint backward pass (`grad` closure in `src/tfdiffeq_2.py`)

The `grad` closure receives, per output tensor, the trajectory of values
`ans` produced by the forward solve at the `T` requested output times and
the incoming gradient trajectory `grad_output`; it iterates
`for i in range(T - 1, 0, -1)`, and in each iteration:

* evaluates the vector field `func_i = func(t[i], ans_i)`;
* computes `dLd_cur_t`, the dot product of `func_i` with the incoming
  gradient at index `i`, subtracts it from the running `adj_time` and
  appends it to `time_vjps`;
* invokes the solver `odeint` on the augmented system over exactly the
  two time points `[t[i], t[i - 1]]`;
* unpacks `adj_y`, `adj_time`, `adj_params` from the solver result and
  corrects `adj_y` by adding `grad_output[i - 1]`.

The solver is external (library `tfdiffeq`), so it is a parameter
`solver`; it receives the augmented initial state and the pair of time
points and returns the augmented state at the second time point (the
source keeps index `[1]` of each returned 2-point trajectory).  To state
"the solver is invoked exactly `T - 1` times, once per segment" the loop
state additionally records the list `calls` of time pairs passed to the
solver; this instrumentation field is written only next to the solver
invocation and read by nothing else.
-/

/-- The augmented state handed to the solver: `(*ans_i, *adj_y, adj_time,
adj_params)` (`aug_y0` at line 138 of `src/tfdiffeq_2.py`). -/
structure AugY0 where
  y : List V
  adj_y : List V
  adj_time : ℚ
  adj_params : V

/-- The part of the solver result the source unpacks (lines 148–154):
`adj_y = aug_ans[n_tensors:2 n_tensors]`, `adj_time = aug_ans[2 n_tensors]`,
`adj_params = aug_ans[2 n_tensors + 1]`, each evaluated at the second of
the two time points.  The integrated original states `aug_ans[:n_tensors]`
are not read, so they are not part of this structure. -/
structure AugOut where
  adj_y : List V
  adj_time : ℚ
  adj_params : V

/-- An abstract ODE solver for the augmented system: given the augmented
initial state and the two requested time points, it returns the augmented
state at the second time point. -/
abbrev Solver := AugY0 → ℚ × ℚ → AugOut

/-- State carried through the backward loop of `grad`:
`adj_y`, `adj_time`, `adj_params`, and the accumulating `time_vjps` list.
`calls` records the `(t[i], t[i-1])` pair of every solver invocation. -/
structure BackState where
  adj_y : List V
  adj_time : ℚ
  adj_params : V
  time_vjps : List ℚ
  calls : List (ℚ × ℚ)

/-- The value `dLd_cur_t` at output index `i` (lines 123–126 of the source): the sum
over output tensors of the dot product of the vector-field evaluation
`func(t[i], ans_i)` with the incoming gradient `grad_output_i`. -/
def dLd_cur_t (func : ℚ → List V → List V) (t : ℕ → ℚ)
    (ans grad_output : List (ℕ → V)) (i : ℕ) : ℚ :=
  (List.zipWith dot (func (t i) (ans.map (fun a => a i)))
    (grad_output.map (fun g => g i))).sum

/-- The `count == 0` replacement for `adj_params` (lines 132–136): if
`adj_params` has zero elements it is replaced by a scalar zero before the
augmented initial state is assembled. -/
def adjParamsFix (p : V) : V := if p.length = 0 then [0] else p

/-- One iteration of the backward loop of `grad` at output index `i`
(lines 107–158 of `src/tfdiffeq_2.py`). -/
def gradStep (solver : Solver) (func : ℚ → List V → List V) (t : ℕ → ℚ)
    (ans grad_output : List (ℕ → V)) (s : BackState) (i : ℕ) : BackState :=
  let ans_i : List V := ans.map (fun a => a i)
  let dLd : ℚ := dLd_cur_t func t ans grad_output i
  let adj_time' : ℚ := s.adj_time - dLd
  let adj_params' : V := adjParamsFix s.adj_params
  let out : AugOut :=
    solver { y := ans_i, adj_y := s.adj_y, adj_time := adj_time',
             adj_params := adj_params' } (t i, t (i - 1))
  { adj_y := List.zipWith (fun a g => vadd a (g (i - 1))) out.adj_y grad_output
    adj_time := out.adj_time
    adj_params := out.adj_params
    time_vjps := s.time_vjps ++ [dLd]
    calls := s.calls ++ [(t i, t (i - 1))] }

/-- The sequence of output indices visited by the backward loop:
`range(T - 1, 0, -1)`, i.e. `T - 1, T - 2, …, 1`. -/
def backIndices (T : ℕ) : List ℕ := (List.range' 1 (T - 1)).reverse

/-- Initial loop state (lines 100–106): `adj_y` is the incoming gradient
at the last output index, `adj_params = tf.zeros_like(flat_params)`,
`adj_time = 0`, `time_vjps = []`. -/
def gradInit (grad_output : List (ℕ → V)) (flat_params : V) (T : ℕ) : BackState :=
  { adj_y := grad_output.map (fun g => g (T - 1))
    adj_time := 0
    adj_params := zerosLike flat_params
    time_vjps := []
    calls := [] }

/-- The whole backward loop of `grad`: fold `gradStep` over the indices
`T - 1, …, 1`. -/
def gradLoop (solver : Solver) (func : ℚ → List V → List V) (t : ℕ → ℚ)
    (ans grad_output : List (ℕ → V)) (flat_params : V) (T : ℕ) : BackState :=
  (backIndices T).foldl (gradStep solver func t ans grad_output)
    (gradInit grad_output flat_params T)

/-- After the loop, `time_vjps.append(adj_time)` followed by
`tf.concat(time_vjps[::-1], 0)` (lines 160–161): the per-index time
contributions and the remaining running time-adjoint, in forward
chronological order. -/
def grad_time_vjps (solver : Solver) (func : ℚ → List V → List V) (t : ℕ → ℚ)
    (ans grad_output : List (ℕ → V)) (flat_params : V) (T : ℕ) : List ℚ :=
  let s := gradLoop solver func t ans grad_output flat_params T
  (s.time_vjps ++ [s.adj_time]).reverse

/-- A trivial concrete solver for witnesses: it returns the augmented
initial state unchanged (integration over a zero-length step). -/
def idSolver : Solver := fun a _ =>
  { adj_y := a.adj_y, adj_time := a.adj_time, adj_params := a.adj_params }

/-!
## `augmented_dynamics` (lines 61–96 of `src/tfdiffeq_2.py`)

`augmented_dynamics(t, y_aug)` splits the augmented state into the
original states `y = y_aug[:n_tensors]` and the state adjoints
`adj_y = y_aug[n_tensors:2 n_tensors]`, evaluates the vector field under a
gradient tape, and asks the tape for the gradients of the evaluation with
respect to `(t,) + y + f_params` with output gradients `-adj_y`.
`tape.gradient` may return `None` for any leaf; the source substitutes
zeros (`tf.zeros_like` of the leaf) for every `None`.  Reverse-mode
differentiation is external (TensorFlow), so it is an abstract oracle
returning `Option` values, `none` standing for Python's `None`.

When the model has zero trainable parameters (`_check_len(f_params) == 0`)
line 93 reads the attribute `dype` of the tensor `vjp_y[0]`; a
`tf.Tensor` has no attribute of that name (the attribute is `dtype`), so
Python raises `AttributeError` there.  Attribute access is modelled by
lookup in the list of attribute names the tensors of this code expose.
-/

/-- Result of `tape.gradient(func_eval, (t,) + y + f_params,
output_gradients=gradys)`: the gradient with respect to the time scalar,
followed by the gradients with respect to the state tensors and the
parameter tensors.  Any entry may be `none` (Python `None`). -/
structure TapeGrads where
  vjp_t : Option ℚ
  vjp_y_and_params : List (Option V)

/-- An abstract reverse-mode gradient oracle: given `t`, the state tuple
`y` and the output gradients `gradys`, produce the tape gradients. -/
abbrev TapeOracle := ℚ → List V → List V → TapeGrads

/-- Embeds `_flatten_convert_none_to_zeros(vjp_params, f_params)`: flatten the
parameter gradients into one vector, replacing a `None` gradient by a
zero tensor shaped like the corresponding parameter. -/
def flattenConvertNoneToZeros (grads : List (Option V)) (params : List V) : V :=
  (List.zipWith (fun g p => g.getD (zerosLike p)) grads params).flatten

/-- The attribute names a tensor exposes, as far as this code reads them.
Python attribute access on any other name raises `AttributeError`. -/
def tensorAttrs : List String := ["dtype", "device", "shape"]

/-- Python attribute lookup on a tensor. -/
def getattrTensor (attr : String) : Except String Unit :=
  if attr ∈ tensorAttrs then Except.ok ()
  else Except.error ("AttributeError: " ++ attr)

/-- The tuple returned by `augmented_dynamics`:
`(*func_eval, *vjp_y, vjp_t, vjp_params)`. -/
structure AugDynOut where
  func_eval : List V
  vjp_y : List V
  vjp_t : ℚ
  vjp_params : V
  deriving DecidableEq

/-- Embeds `augmented_dynamics` (lines 61–96 of `src/tfdiffeq_2.py`).  The
`Except` layer carries Python exceptions: the only raising statement in
the body is the `vjp_y[0].dype` attribute access on line 93, reached
exactly when `f_params` is empty. -/
def augmented_dynamics (oracle : TapeOracle) (func : ℚ → List V → List V)
    (f_params : List V) (n_tensors : ℕ) (t : ℚ) (y_aug : List V) :
    Except String AugDynOut :=
  let y : List V := y_aug.take n_tensors
  let adj_y : List V := (y_aug.drop n_tensors).take n_tensors
  let func_eval : List V := func t y
  let gradys : List V := adj_y.map vneg
  let g : TapeGrads := oracle t y gradys
  let vjp_y0 : List (Option V) := g.vjp_y_and_params.take n_tensors
  let vjp_params0 : List (Option V) := g.vjp_y_and_params.drop n_tensors
  let vjp_t : ℚ := g.vjp_t.getD 0
  let vjp_y : List V := List.zipWith (fun vy y_ => vy.getD (zerosLike y_)) vjp_y0 y
  let vjp_params : V := flattenConvertNoneToZeros vjp_params0 f_params
  if f_params.length = 0 then
    match getattrTensor "dype" with
    | Except.error e => Except.error e
    | Except.ok _ =>
        Except.ok { func_eval := func_eval, vjp_y := vjp_y, vjp_t := vjp_t,
                    vjp_params := [0] }
  else
    Except.ok { func_eval := func_eval, vjp_y := vjp_y, vjp_t := vjp_t,
                vjp_params := vjp_params }

/-!
## Dataset creation and persistence
(`src/experiments/massspringdamper/utils.py`)

`create_dataset` builds its arrays by driving a `MassSpringDamper`
simulator.  That class is imported from outside this repository, so its
output shapes are modelled from the spec; everything downstream
(`np.array`, the extra `[...]` wrapper on the validation targets,
`np.stack`, `np.save`/`np.load`) is embedded from the source.
-/

/-- The shape of a numpy array. -/
abbrev Shape := List ℕ

/-- Modelled from the spec: `MassSpringDamper.step(dt, n_steps)` — the
simulator class is imported from outside this repository — produces a
trajectory of `n_steps` two-component states, an array of shape
`[n_steps, 2]` ("a Trajectory of States at uniform time steps", states
being `(position, velocity)` pairs). -/
def msd_step_shape (n_steps : ℕ) : Shape := [n_steps, 2]

/-- Modelled from the spec: `MassSpringDamper.call(t, x)` — the simulator
class is imported from outside this repository — evaluates the derivative
field batched over the states of `x`, producing an array of the same
shape as `x`. -/
def msd_call_shape (s : Shape) : Shape := s

/-- Shape of `np.stack` applied to `k` arrays of common shape `s`. -/
def npStack_shape (k : ℕ) (s : Shape) : Shape := k :: s

/-- Shape of `np.array([x])` for `x` of shape `s`: the list wrapper adds
a leading axis of length 1. -/
def npWrap_shape (s : Shape) : Shape := 1 :: s

/-- Shapes of the four arrays returned by `create_dataset` (lines 50–96
of `utils.py`): `x_train` stacks `n_series` simulator trajectories;
`y_train` stacks `np.array(msd.call(0., x_train[-1]))` (no wrapper);
`x_val` stacks two trajectories; `y_val` stacks
`np.array([msd.call(0., x_val[-1])])` — with the extra `[...]` wrapper
the source puts around the call result on lines 83 and 87. -/
def create_dataset_shapes (n_series samples_per_series : ℕ) :
    Shape × Shape × Shape × Shape :=
  let x_train := npStack_shape n_series (msd_step_shape samples_per_series)
  let y_train :=
    npStack_shape n_series (msd_call_shape (msd_step_shape samples_per_series))
  let x_val := npStack_shape 2 (msd_step_shape samples_per_series)
  let y_val :=
    npStack_shape 2 (npWrap_shape (msd_call_shape (msd_step_shape samples_per_series)))
  (x_train, y_train, x_val, y_val)

/-- Contents of one saved `.npy` file: a flattened array of float64
values, modelled as rationals. -/
abbrev Arr := List ℚ

/-- The saved dataset files: a map from path to contents. -/
abbrev NpyStore := String → Option Arr

/-- Embeds `np.save(path, a)`. -/
def npSave (store : NpyStore) (path : String) (a : Arr) : NpyStore :=
  fun p => if p = path then some a else store p

/-- Embeds `np.load(path)`; `none` when the file is absent. -/
def npLoad (store : NpyStore) (path : String) : Option Arr := store path

/-- Embeds `.astype(np.float32)`: the elementwise downcast from the saved
precision to float32, modelled as an abstract map `f32`. -/
def astypeFloat32 (f32 : ℚ → ℚ) (a : Arr) : Arr := a.map f32

def x_train_path : String := "experiments/datasets/mass_spring_damper_x_train.npy"

def y_train_path : String := "experiments/datasets/mass_spring_damper_y_train.npy"

def x_val_path : String := "experiments/datasets/mass_spring_damper_x_val.npy"

def y_val_path : String := "experiments/datasets/mass_spring_damper_y_val.npy"

/-- The four `np.save` calls `create_dataset` makes when
`save_to_disk=True` (lines 91–95 of `utils.py`). -/
def create_dataset_save (store : NpyStore) (xt yt xv yv : Arr) : NpyStore :=
  npSave (npSave (npSave (npSave store x_train_path xt) y_train_path yt)
    x_val_path xv) y_val_path yv

/-- Embeds `load_dataset` (lines 98–103 of `utils.py`): load the four files and
downcast each to float32. -/
def load_dataset (f32 : ℚ → ℚ) (store : NpyStore) :
    Option (Arr × Arr × Arr × Arr) := do
  let xt ← npLoad store x_train_path
  let yt ← npLoad store y_train_path
  let xv ← npLoad store x_val_path
  let yv ← npLoad store y_val_path
  pure (astypeFloat32 f32 xt, astypeFloat32 f32 yt,
        astypeFloat32 f32 xv, astypeFloat32 f32 yv)

/-!
## Evaluation metrics (`utils.py` lines 111–149 and 314–316)
-/

/-- A state array of rank 1 (one `(position, velocity)` state) or rank 2
(a batch of such states), mirroring the two branches `total_energy` keeps
for `len(state.shape)` of 1 or 2; any other rank raises `ValueError`. -/
inductive StateArr where
  | rank1 : ℚ → ℚ → StateArr
  | rank2 : List (ℚ × ℚ) → StateArr
  deriving DecidableEq

/-- An energy value: a scalar for a rank-1 state, a vector (one energy
per batch entry) for a rank-2 batch. -/
inductive Energy where
  | s : ℚ → Energy
  | v : List ℚ → Energy
  deriving DecidableEq

/-- Embeds `total_energy(state, k=1, m=1)` (lines 111–117 of `utils.py`):
`0.5*k*x*x + 0.5*m*v*v`, elementwise over the batch for rank 2. -/
def total_energy (k m : ℚ) : StateArr → Energy
  | StateArr.rank1 x v => Energy.s ((1 / 2) * k * x * x + (1 / 2) * m * v * v)
  | StateArr.rank2 l =>
      Energy.v (l.map (fun p => (1 / 2) * k * p.1 * p.1 + (1 / 2) * m * p.2 * p.2))

/-- Embeds `relative_energy_drift(x_pred, x_true, t)` (lines 120–129):
`(energy_pred - energy_true) / energy_true` at trajectory index `t`,
with `total_energy` called at its default `k = m = 1`.  The two energies
have matching rank whenever the trajectories do (the numpy broadcasting
of mixed ranks never arises in the claims and is left out, `none`). -/
def relative_energy_drift (x_pred x_true : ℕ → StateArr) (t : ℕ) : Option Energy :=
  match total_energy 1 1 (x_pred t), total_energy 1 1 (x_true t) with
  | Energy.s a, Energy.s b => some (Energy.s ((a - b) / b))
  | Energy.v a, Energy.v b =>
      if a.length = b.length then
        some (Energy.v (List.zipWith (fun p q => (p - q) / q) a b))
      else none
  | _, _ => none

/-- Whether an energy value is (elementwise) nonzero. -/
def energyNonzero : Energy → Prop
  | Energy.s a => a ≠ 0
  | Energy.v l => ∀ q ∈ l, q ≠ 0

/-- The zero energy of the same rank and batch size as the argument. -/
def zeroLikeEnergy : Energy → Energy
  | Energy.s _ => Energy.s 0
  | Energy.v l => Energy.v (l.map (fun _ => 0))

/-- Embeds `np.sign`. -/
def npSign (x : ℚ) : ℚ := if 0 < x then 1 else if x < 0 then -1 else 0

/-- Embeds `np.diff`: the list of successive differences. -/
def npDiff (l : List ℚ) : List ℚ := List.zipWith (fun a b => b - a) l l.tail

/-- Embeds `zero_crossings(x)` (lines 314–316 of `utils.py`):
`np.where(np.diff(np.sign(x)))[0]`, the ascending list of indices `i`
at which the sign differs between samples `i` and `i + 1`. -/
def zero_crossings (x : List ℚ) : List ℕ :=
  (((npDiff (x.map npSign)).enum.filter (fun p => decide (p.2 ≠ 0))).map
    (fun p => p.1))

/-- The position column `x[:, 0]` of a 2-column time series. -/
def posCol (x : List (ℚ × ℚ)) : List ℚ := x.map (fun p => p.1)

/-- Whether a signal changes sign (in the `np.sign` sense) between
samples 0 and 1, i.e. whether `np.diff(np.sign(x))` is nonzero at
index 0. -/
def signChange01 (l : List ℚ) : Bool :=
  match l with
  | a :: b :: _ => decide (npSign a ≠ npSign b)
  | _ => false

/-- The local `ref_crossings` (line 141): crossings of the reference positions. -/
def ref_crossings (x_val : List (ℚ × ℚ)) : List ℕ := zero_crossings (posCol x_val)

/-- The local `pred_crossings` (line 142): crossings of the predicted positions. -/
def pred_crossings (x_pred : List (ℚ × ℚ)) : List ℕ := zero_crossings (posCol x_pred)

/-- The local `n_crossings` (line 143): the minimum of the two crossing counts. -/
def n_crossings (x_pred x_val : List (ℚ × ℚ)) : ℕ :=
  min (pred_crossings x_pred).length (ref_crossings x_val).length

/-- Embeds `relative_phase_error(x_pred, x_val)` (lines 132–145 of `utils.py`):
truncate both crossing-index lists to the first `n_crossings` entries,
form `1 / ref - 1 / pred` elementwise, and return the mean of
`phase_error * ref`.  Two partial spots are made explicit in the
embedding because their numpy results (`inf`, `nan`) have no rational
counterpart: a retained crossing index equal to `0` makes
`1 / ref_crossings` (or `1 / pred_crossings`) divide by zero, and
`np.mean` of an empty slice is not a number. -/
def relative_phase_error (x_pred x_val : List (ℚ × ℚ)) : Except String ℚ :=
  let n := n_crossings x_pred x_val
  let refn := (ref_crossings x_val).take n
  let predn := (pred_crossings x_pred).take n
  if 0 ∈ refn ∨ 0 ∈ predn then Except.error "division by zero"
  else if n = 0 then Except.error "mean of empty slice"
  else
    let refq := refn.map (fun c => (c : ℚ))
    let predq := predn.map (fun c => (c : ℚ))
    let phase_error := List.zipWith (fun r p => 1 / r - 1 / p) refq predq
    Except.ok ((List.zipWith (fun e r => e * r) phase_error refq).sum / (n : ℚ))

/-- Embeds `trajectory_error` (lines 148–149): mean absolute difference. -/
def trajectory_error (x_pred x_val : List (ℚ × ℚ)) : ℚ :=
  ((List.zipWith (fun p q => |p.1 - q.1| + |p.2 - q.2|) x_pred x_val).sum) /
    (2 * x_val.length : ℚ)

/-!
## The results log written by `visualize` (`utils.py` lines 295–312)

Only the log-writing tail of `visualize` is embedded; the matplotlib
calls draw on the screen and the metric values only flow into the data
row, which is a parameter here.  The file system is a map from path to
contents.
-/

/-- A text file system: path to contents. -/
abbrev TextFS := String → Option String

/-- Embeds `os.path.isfile(p)`. -/
def isfile (fs : TextFS) (p : String) : Bool := (fs p).isSome

/-- Embeds `open(p, 'a')`, `write(s)`, `close()`: append `s` to the file at `p`,
creating it when absent. -/
def appendWrite (fs : TextFS) (p s : String) : TextFS :=
  fun q => if q = p then some ((fs p).getD "" ++ s) else fs q

/-- The header line of the results log, exactly as lines 305–306 of
`utils.py` build it — including the space the source puts after the
commas in front of `phase_error_interp`, `traj_err_interp` and
`traj_err_extrap`. -/
def title_string : String :=
  "wall_time,epoch,energy_drift_interp,energy_drift_extrap, phase_error_interp,"
    ++ "phase_error_extrap, traj_err_interp, traj_err_extrap\n"

/-- The results-log tail of `visualize` (lines 301–312): if no file
exists at `file_path`, append the header line; then append the data row
(the row `string` formatted at lines 297–300 is the parameter `row`). -/
def visualize_log (fs : TextFS) (file_path row : String) : TextFS :=
  let fs1 := if isfile fs file_path then fs else appendWrite fs file_path title_string
  appendWrite fs1 file_path row

/-!
## Theorems
-/

/-- Folding `gradStep` appends one solver-call record per visited index,
in visiting order. -/
theorem foldl_gradStep_calls (solver : Solver) (func : ℚ → List V → List V)
    (t : ℕ → ℚ) (ans grad_output : List (ℕ → V)) (l : List ℕ) (s : BackState) :
    (l.foldl (gradStep solver func t ans grad_output) s).calls
      = s.calls ++ l.map (fun i => (t i, t (i - 1))) := by
  induction l generalizing s with
  | nil => simp
  | cons i l ih => simp [ih, gradStep]

/-- Folding `gradStep` appends one `dLd_cur_t` value per visited index,
in visiting order. -/
theorem foldl_gradStep_time_vjps (solver : Solver) (func : ℚ → List V → List V)
    (t : ℕ → ℚ) (ans grad_output : List (ℕ → V)) (l : List ℕ) (s : BackState) :
    (l.foldl (gradStep solver func t ans grad_output) s).time_vjps
      = s.time_vjps ++ l.map (dLd_cur_t func t ans grad_output) := by
  induction l generalizing s with
  | nil => simp
  | cons i l ih => simp [ih, gradStep]

/-- The finished time-gradient vector in closed form: the final running
time-adjoint followed by the per-index contributions from `t 1` up to
`t (T - 1)`. -/
theorem grad_time_vjps_eq (solver : Solver) (func : ℚ → List V → List V)
    (t : ℕ → ℚ) (ans grad_output : List (ℕ → V)) (flat_params : V) (T : ℕ) :
    grad_time_vjps solver func t ans grad_output flat_params T
      = (gradLoop solver func t ans grad_output flat_params T).adj_time
          :: (List.range' 1 (T - 1)).map (dLd_cur_t func t ans grad_output) := by
  show ((gradLoop solver func t ans grad_output flat_params T).time_vjps
      ++ [(gradLoop solver func t ans grad_output flat_params T).adj_time]).reverse = _
  rw [show (gradLoop solver func t ans grad_output flat_params T).time_vjps
        = (backIndices T).map (dLd_cur_t func t ans grad_output) by
      simpa [gradLoop, gradInit] using
        foldl_gradStep_time_vjps solver func t ans grad_output (backIndices T)
          (gradInit grad_output flat_params T)]
  simp [backIndices, List.map_reverse]

/-- C1: for `T` requested output times the backward pass of the `grad`
closure of `OdeintAdjointMethod` invokes the solver exactly `T - 1`
times, iterating output indices `i` from `T - 1` down to `1`; invocation
number `T - i` integrates the augmented system over exactly the two time
points `(t i, t (i - 1))`; and each step feeds the solver output forward
after correcting the adjoint-of-state by adding the incoming gradient at
output index `i - 1`. -/
theorem grad_solver_invocations (solver : Solver) (func : ℚ → List V → List V)
    (t : ℕ → ℚ) (ans grad_output : List (ℕ → V)) (flat_params : V) (T : ℕ) :
    (gradLoop solver func t ans grad_output flat_params T).calls
        = ((List.range' 1 (T - 1)).reverse).map (fun i => (t i, t (i - 1)))
    ∧ (gradLoop solver func t ans grad_output flat_params T).calls.length = T - 1
    ∧ (∀ (s : BackState) (i : ℕ),
        (gradStep solver func t ans grad_output s i).adj_y
          = List.zipWith (fun a g => vadd a (g (i - 1)))
              (solver { y := ans.map (fun a => a i), adj_y := s.adj_y,
                        adj_time := s.adj_time - dLd_cur_t func t ans grad_output i,
                        adj_params := adjParamsFix s.adj_params }
                (t i, t (i - 1))).adj_y grad_output) := by
  have hc : (gradLoop solver func t ans grad_output flat_params T).calls
      = ((List.range' 1 (T - 1)).reverse).map (fun i => (t i, t (i - 1))) := by
    simpa [gradLoop, gradInit, backIndices] using
      foldl_gradStep_calls solver func t ans grad_output (backIndices T)
        (gradInit grad_output flat_params T)
  refine ⟨hc, ?_, ?_⟩
  · rw [hc]; simp
  · intro s i
    rfl

/-- C2: the time gradient returned by the `grad` closure has one entry
per requested output time, in forward chronological order: entry `0` is
the remaining running time-adjoint (for `t 0`) and entry `i`
(`1 ≤ i < T`) is the contribution computed at `t i`, namely the dot
product of the vector-field evaluation with the incoming gradient at
index `i`; each backward step appends exactly that contribution to
`time_vjps` and hands the solver the running time-adjoint with the
contribution subtracted. -/
theorem grad_time_vjps_layout (solver : Solver) (func : ℚ → List V → List V)
    (t : ℕ → ℚ) (ans grad_output : List (ℕ → V)) (flat_params : V) (T : ℕ)
    (hT : 1 ≤ T) :
    (grad_time_vjps solver func t ans grad_output flat_params T).length = T
    ∧ (grad_time_vjps solver func t ans grad_output flat_params T).head?
        = some (gradLoop solver func t ans grad_output flat_params T).adj_time
    ∧ (∀ i : ℕ, 1 ≤ i → i < T →
        (grad_time_vjps solver func t ans grad_output flat_params T)[i]?
          = some (dLd_cur_t func t ans grad_output i))
    ∧ (∀ (s : BackState) (i : ℕ),
        (gradStep solver func t ans grad_output s i).time_vjps
            = s.time_vjps ++ [dLd_cur_t func t ans grad_output i]
        ∧ (gradStep solver func t ans grad_output s i).adj_time
            = (solver { y := ans.map (fun a => a i), adj_y := s.adj_y,
                        adj_time := s.adj_time - dLd_cur_t func t ans grad_output i,
                        adj_params := adjParamsFix s.adj_params }
                (t i, t (i - 1))).adj_time) := by
  rw [grad_time_vjps_eq]
  refine ⟨?_, rfl, ?_, ?_⟩
  · simp; omega
  · intro i h1 hiT
    obtain ⟨j, rfl⟩ : ∃ j, i = j + 1 := ⟨i - 1, by omega⟩
    have hj : j < T - 1 := by omega
    rw [List.getElem?_cons_succ, List.getElem?_map, List.getElem?_range' 1 1 hj]
    have hj1 : 1 + 1 * j = j + 1 := by omega
    rw [Option.map_some', hj1]
  · intro s i
    exact ⟨rfl, rfl⟩

/-- Witness for the C2 theorem at a concrete instance: identity solver,
identity vector field, `t i = i`, one output tensor, `T = 3`. -/
theorem grad_time_vjps_layout_witness :
    (grad_time_vjps idSolver (fun _ y => y) (fun i => (i : ℚ))
        [fun i => [(i : ℚ)]] [fun _ => [1]] [] 3).length = 3
    ∧ (grad_time_vjps idSolver (fun _ y => y) (fun i => (i : ℚ))
        [fun i => [(i : ℚ)]] [fun _ => [1]] [] 3)[2]?
        = some (dLd_cur_t (fun _ y => y) (fun i => (i : ℚ))
            [fun i => [(i : ℚ)]] [fun _ => [1]] 2) :=
  ⟨(grad_time_vjps_layout idSolver (fun _ y => y) (fun i => (i : ℚ))
      [fun i => [(i : ℚ)]] [fun _ => [1]] [] 3 (by norm_num)).1,
   (grad_time_vjps_layout idSolver (fun _ y => y) (fun i => (i : ℚ))
      [fun i => [(i : ℚ)]] [fun _ => [1]] [] 3 (by norm_num)).2.2.1 2
      (by norm_num) (by norm_num)⟩

/-- C3: inside `augmented_dynamics`, whenever reverse-mode
differentiation returns no gradient (`None`) for a leaf — the time
scalar, any state component, or any parameter — a zero tensor of that
leaf's shape is substituted (`getD 0`, `getD (zerosLike leaf)`,
`flattenConvertNoneToZeros`) and computation continues: for every
gradient oracle, hence for every pattern of missing gradients, the
function returns `Except.ok` with the substituted values (provided the
model has any parameters; with zero parameters the failure is the
unrelated `dype` attribute slip of line 93, independent of which
gradients are missing). -/
theorem augmented_dynamics_none_to_zeros (oracle : TapeOracle)
    (func : ℚ → List V → List V) (f_params : List V) (n_tensors : ℕ)
    (t : ℚ) (y_aug : List V) (h : f_params ≠ []) :
    augmented_dynamics oracle func f_params n_tensors t y_aug
      = Except.ok
          { func_eval := func t (y_aug.take n_tensors)
            vjp_y := List.zipWith (fun vy y_ => vy.getD (zerosLike y_))
                ((oracle t (y_aug.take n_tensors)
                    (((y_aug.drop n_tensors).take n_tensors).map
                      vneg)).vjp_y_and_params.take n_tensors)
                (y_aug.take n_tensors)
            vjp_t := (oracle t (y_aug.take n_tensors)
                (((y_aug.drop n_tensors).take n_tensors).map vneg)).vjp_t.getD 0
            vjp_params := flattenConvertNoneToZeros
                ((oracle t (y_aug.take n_tensors)
                    (((y_aug.drop n_tensors).take n_tensors).map
                      vneg)).vjp_y_and_params.drop n_tensors)
                f_params } := by
  have hlen : ¬ f_params.length = 0 := by simpa [List.length_eq_zero] using h
  simp [augmented_dynamics, hlen]

/-- Witness for the C3 theorem at a concrete instance: the oracle
reports a missing gradient for every leaf; the result is `ok` with all
gradients zero. -/
theorem augmented_dynamics_none_to_zeros_witness :
    augmented_dynamics
        (fun _ _ _ => { vjp_t := none, vjp_y_and_params := [none, none] })
        (fun _ y => y) [[5]] 1 0 [[1], [2]]
      = Except.ok { func_eval := [[1]], vjp_y := [[0]], vjp_t := 0,
                    vjp_params := [0] } := by
  rw [augmented_dynamics_none_to_zeros
        (fun _ _ _ => { vjp_t := none, vjp_y_and_params := [none, none] })
        (fun _ y => y) [[5]] 1 0 [[1], [2]] (by decide)]
  rfl

/-- C4 (code bug): with zero trainable parameters every call of
`augmented_dynamics` raises `AttributeError` — line 93 reads the
misspelled attribute `vjp_y[0].dype` of a tensor that only has `dtype` —
instead of substituting the device-consistent scalar-zero placeholder,
so the backward pass cannot complete in this case.  Evaluated at a
concrete input with `f_params = []`. -/
theorem augmented_dynamics_zero_params_attribute_error :
    augmented_dynamics (fun _ _ _ => { vjp_t := none, vjp_y_and_params := [none] })
        (fun _ y => y) [] 1 0 [[1], [1]]
      = Except.error "AttributeError: dype" := rfl

/-- C5 (code bug): of the four arrays `create_dataset` returns, the
training input/target and the validation input have the claimed 3-D
`[series, timestep, 2]` shapes, but the validation target is 4-D: the
extra list wrapper in `np.array([msd.call(...)])` on lines 83 and 87
gives `y_val` the shape `[2, 1, samples_per_series, 2]`, contradicting
the claim and the function's own docstring. -/
theorem create_dataset_y_val_shape_4d :
    (create_dataset_shapes 51 1001).1 = [51, 1001, 2]
    ∧ (create_dataset_shapes 51 1001).2.1 = [51, 1001, 2]
    ∧ (create_dataset_shapes 51 1001).2.2.1 = [2, 1001, 2]
    ∧ (create_dataset_shapes 51 1001).2.2.2 = [2, 1, 1001, 2]
    ∧ (create_dataset_shapes 51 1001).2.2.2.length = 4 := by
  refine ⟨rfl, rfl, rfl, rfl, rfl⟩

/-- C6: `load_dataset` run after `create_dataset`'s four saves returns
exactly the four in-memory arrays with the float32 downcast applied
elementwise — the loaded tuple is the `f32` image of the saved tuple, so
no element differs beyond the downcast. -/
theorem load_after_save_roundtrip (f32 : ℚ → ℚ) (store : NpyStore)
    (xt yt xv yv : Arr) :
    load_dataset f32 (create_dataset_save store xt yt xv yv)
      = some (xt.map f32, yt.map f32, xv.map f32, yv.map f32) := rfl

/-- The quotient `(p - q) / q` vanishes on the diagonal, elementwise. -/
theorem zipWith_sub_div_self (el : List ℚ) :
    List.zipWith (fun p q => (p - q) / q) el el = el.map (fun _ => 0) := by
  induction el with
  | nil => rfl
  | cons a l ih => simp [ih]

/-- C7: for a predicted trajectory identical to the reference
trajectory, at any index where the total mechanical energy is nonzero,
the relative energy drift is exactly zero (the zero scalar for a rank-1
state, the zero vector for a rank-2 batch). -/
theorem relative_energy_drift_self (x : ℕ → StateArr) (t : ℕ)
    (_h : energyNonzero (total_energy 1 1 (x t))) :
    relative_energy_drift x x t
      = some (zeroLikeEnergy (total_energy 1 1 (x t))) := by
  cases hx : x t with
  | rank1 p v => simp [relative_energy_drift, total_energy, zeroLikeEnergy, hx]
  | rank2 l =>
      simp [relative_energy_drift, total_energy, zeroLikeEnergy, hx,
        zipWith_sub_div_self]

/-- Witness for the C7 theorem at a concrete instance: the state
`(1, 2)` of energy `5/2 ≠ 0`. -/
theorem relative_energy_drift_self_witness :
    relative_energy_drift (fun _ => StateArr.rank1 1 2)
        (fun _ => StateArr.rank1 1 2) 0 = some (Energy.s 0) := by
  have h := relative_energy_drift_self (fun _ => StateArr.rank1 1 2) 0
    (by norm_num [total_energy, energyNonzero])
  simpa [total_energy, zeroLikeEnergy] using h

/-- C8: when the predicted and reference position signals have different
crossing counts, `relative_phase_error` truncates both crossing-index
lists to the shorter length `n_crossings` and returns the mean phase
error over only those first `n_crossings` crossings of each signal,
raising no error for the mismatch.  The preconditions `hz` and `hn` only
exclude the values that are non-finite in numpy and so have no rational
counterpart (a retained crossing index 0, a mean over zero crossings);
they are unrelated to the count mismatch. -/
theorem relative_phase_error_truncates (x_pred x_val : List (ℚ × ℚ))
    (_hne : (pred_crossings x_pred).length ≠ (ref_crossings x_val).length)
    (hz : ¬(0 ∈ (ref_crossings x_val).take (n_crossings x_pred x_val)
          ∨ 0 ∈ (pred_crossings x_pred).take (n_crossings x_pred x_val)))
    (hn : n_crossings x_pred x_val ≠ 0) :
    relative_phase_error x_pred x_val
      = Except.ok ((List.zipWith (fun e r => e * r)
            (List.zipWith (fun r p => 1 / r - 1 / p)
              (((ref_crossings x_val).take (n_crossings x_pred x_val)).map
                (fun c => (c : ℚ)))
              (((pred_crossings x_pred).take (n_crossings x_pred x_val)).map
                (fun c => (c : ℚ))))
            (((ref_crossings x_val).take (n_crossings x_pred x_val)).map
              (fun c => (c : ℚ)))).sum
          / (n_crossings x_pred x_val : ℚ)) := by
  simp only [relative_phase_error]
  rw [if_neg hz, if_neg hn]

/-- Witness for the C8 theorem at a concrete instance: the reference
positions cross three times (indices 1, 2, 3), the predicted positions
once (index 1); the mean is taken over the single aligned pair. -/
theorem relative_phase_error_truncates_witness :
    relative_phase_error [(1, 0), (1, 0), (-1, 0), (-1, 0), (-1, 0)]
        [(1, 0), (1, 0), (-1, 0), (1, 0), (-1, 0)] = Except.ok 0 := by
  have e1 : pred_crossings [(1, 0), (1, 0), (-1, 0), (-1, 0), (-1, 0)] = [1] := by
    norm_num [pred_crossings, zero_crossings, posCol, npDiff, npSign, List.enum,
      List.enumFrom, List.filter]
  have e2 : ref_crossings [(1, 0), (1, 0), (-1, 0), (1, 0), (-1, 0)] = [1, 2, 3] := by
    norm_num [ref_crossings, zero_crossings, posCol, npDiff, npSign, List.enum,
      List.enumFrom, List.filter]
  have e3 : n_crossings [(1, 0), (1, 0), (-1, 0), (-1, 0), (-1, 0)]
      [(1, 0), (1, 0), (-1, 0), (1, 0), (-1, 0)] = 1 := by
    rw [n_crossings, e1, e2]; decide
  rw [relative_phase_error_truncates
      [(1, 0), (1, 0), (-1, 0), (-1, 0), (-1, 0)]
      [(1, 0), (1, 0), (-1, 0), (1, 0), (-1, 0)]
      (by rw [e1, e2]; decide) (by rw [e1, e2, e3]; decide) (by rw [e3]; decide),
    e1, e2, e3]
  norm_num

/-- C9 counterexample: the header `visualize` writes on a fresh file
system is not the claimed comma-separated header — the source inserts a
space after the commas in front of `phase_error_interp`,
`traj_err_interp` and `traj_err_extrap`. -/
theorem visualize_log_header_counterexample :
    (visualize_log (fun _ => none) "results.csv" "1.0,0,0,0,0,0,0,0\n")
        "results.csv"
        = some (title_string ++ "1.0,0,0,0,0,0,0,0\n")
    ∧ title_string
        ≠ "wall_time,epoch,energy_drift_interp,energy_drift_extrap,phase_error_interp,phase_error_extrap,traj_err_interp,traj_err_extrap\n" := by
  refine ⟨rfl, by decide⟩

/-- C9 (amended): each call of the results-log tail of `visualize`
appends exactly one data row; when the file does not yet exist the call
first writes the header line `title_string` (the claimed field names,
but with a space after three of the commas), and when the file exists no
header is written — so two calls on an absent file produce the header
exactly once followed by the two data rows. -/
theorem visualize_log_appends (fs : TextFS) (p r1 r2 c : String) :
    (fs p = none →
        (visualize_log fs p r1) p = some (title_string ++ r1)
        ∧ (visualize_log (visualize_log fs p r1) p r2) p
            = some (title_string ++ r1 ++ r2))
    ∧ (fs p = some c → (visualize_log fs p r1) p = some (c ++ r1)) := by
  constructor
  · intro h
    constructor
    · simp [visualize_log, isfile, appendWrite, h]
    · simp [visualize_log, isfile, appendWrite, h]
  · intro h
    simp [visualize_log, isfile, appendWrite, h]

/-- Witness for the C9 theorem on a fresh (empty) file system. -/
theorem visualize_log_appends_witness :
    (visualize_log (fun _ => none) "log.csv" "a\n") "log.csv"
        = some (title_string ++ "a\n")
    ∧ (visualize_log (visualize_log (fun _ => none) "log.csv" "a\n")
        "log.csv" "b\n") "log.csv"
        = some (title_string ++ "a\n" ++ "b\n") :=
  (visualize_log_appends (fun _ => none) "log.csv" "a\n" "b\n" "").1 rfl

/-- A signal that changes sign between samples 0 and 1 has 0 as its
first detected zero-crossing index. -/
theorem zero_crossings_head_of_signChange01 (l : List ℚ)
    (h : signChange01 l = true) :
    (zero_crossings l).head? = some 0 := by
  match l, h with
  | a :: b :: rest, h =>
    have hab : npSign b - npSign a ≠ 0 := by
      have : npSign a ≠ npSign b := by simpa [signChange01] using h
      exact sub_ne_zero.mpr (Ne.symm this)
    simp [zero_crossings, npDiff, List.enum_cons, hab]

/-- C10: `relative_phase_error` takes the reciprocal `1 / c` of every
retained zero-crossing index `c`, so it is a finite value only when no
retained index of either signal is 0 — a retained 0 makes the
computation divide by zero; a position signal that changes sign between
samples 0 and 1 gets index 0 reported as its first crossing by
`zero_crossings`; and when the position signals of the input change sign
between samples 0 and 1 the division by zero occurs. -/
theorem relative_phase_error_div_by_zero (x_pred x_val : List (ℚ × ℚ)) :
    ((0 ∈ (ref_crossings x_val).take (n_crossings x_pred x_val)
        ∨ 0 ∈ (pred_crossings x_pred).take (n_crossings x_pred x_val)) →
      relative_phase_error x_pred x_val = Except.error "division by zero")
    ∧ (signChange01 (posCol x_val) = true →
        (zero_crossings (posCol x_val)).head? = some 0)
    ∧ (signChange01 (posCol x_pred) = true →
        signChange01 (posCol x_val) = true →
        relative_phase_error x_pred x_val = Except.error "division by zero") := by
  have hdiv : (0 ∈ (ref_crossings x_val).take (n_crossings x_pred x_val)
      ∨ 0 ∈ (pred_crossings x_pred).take (n_crossings x_pred x_val)) →
      relative_phase_error x_pred x_val = Except.error "division by zero" := by
    intro h
    simp [relative_phase_error, h]
  refine ⟨hdiv, fun hv => zero_crossings_head_of_signChange01 _ hv, ?_⟩
  intro hp hv
  have hv0 : (ref_crossings x_val).head? = some 0 :=
    zero_crossings_head_of_signChange01 _ hv
  have hp0 : (pred_crossings x_pred).head? = some 0 :=
    zero_crossings_head_of_signChange01 _ hp
  obtain ⟨tr, htr⟩ : ∃ tr, ref_crossings x_val = 0 :: tr := by
    cases hc : ref_crossings x_val with
    | nil => rw [hc] at hv0; simp at hv0
    | cons a tr =>
        rw [hc] at hv0
        simp at hv0
        exact ⟨tr, by rw [hv0]⟩
  obtain ⟨tp, htp⟩ : ∃ tp, pred_crossings x_pred = 0 :: tp := by
    cases hc : pred_crossings x_pred with
    | nil => rw [hc] at hp0; simp at hp0
    | cons a tp =>
        rw [hc] at hp0
        simp at hp0
        exact ⟨tp, by rw [hp0]⟩
  have hn : 1 ≤ n_crossings x_pred x_val := by
    simp [n_crossings, htr, htp]
  obtain ⟨m, hm⟩ : ∃ m, n_crossings x_pred x_val = m + 1 :=
    ⟨n_crossings x_pred x_val - 1, by omega⟩
  apply hdiv
  left
  rw [htr, hm, List.take_succ_cons]
  exact List.mem_cons_self 0 _

/-- Witness for the C10 theorem at a concrete instance: both signals
cross between samples 0 and 1, and the phase-error computation divides
by the crossing index 0. -/
theorem relative_phase_error_div_by_zero_witness :
    relative_phase_error [((1 : ℚ), (0 : ℚ)), (-1, 0)]
        [((1 : ℚ), (0 : ℚ)), (-1, 0)] = Except.error "division by zero" :=
  (relative_phase_error_div_by_zero [(1, 0), (-1, 0)] [(1, 0), (-1, 0)]).2.2
    rfl rfl

end NeuralODE
